import Mathlib

/-!
Shallow embedding of the Blender addon "Local View by Collection"
(`__init__.py`).  The host application's scene state that the addon reads
and mutates (selection, active object, local-view mode, data collections,
the 3D-view area/region/space discovery, view-layer collection tree, the
addon keymap list) is modelled explicitly, and each operator callback is
translated into a pure state-passing function.  Host-API calls that can
raise in Blender are guarded by boolean "raise" flags carried in a `Flags`
record, so that the exception-handling structure of the Python code
(nested `try`/`except` blocks) is represented faithfully: a raised
exception either is swallowed where Python swallows it, or surfaces as the
`ExecResult.exn` outcome when Python would let it propagate out of the
callback.
-/

namespace LocalViewCollection

/-- A scene object: its name, whether `visible_get()` returns True, and the
names of the collections it belongs to (`users_collection`). -/
structure Obj where
  name : String
  visible : Bool
  users_collection : List String
deriving DecidableEq, Repr

/-- A data collection (`bpy.data.collections[...]`): its name, its direct
objects (`coll.objects`) and its recursive objects (`coll.all_objects`). -/
structure Coll where
  name : String
  objects : List Obj
  all_objects : List Obj
deriving DecidableEq, Repr

/-- The `spaces` of an area: the active space's type (if any) and the types
of all spaces. -/
structure Spaces where
  active : Option String
  list : List String
deriving DecidableEq, Repr

/-- A screen area: its type, its region types, and its spaces. -/
structure Area where
  type : String
  regions : List String
  spaces : Spaces
deriving DecidableEq, Repr

/-- A layer-collection tree node (`view_layer.layer_collection` and its
`children`); `cname` is the name of the wrapped collection (collections in
Blender are uniquely keyed by name). -/
inductive LC : Type where
  | mk (cname : String) (children : List LC)

def LC.cname : LC → String
  | .mk c _ => c

def LC.children : LC → List LC
  | .mk _ cs => cs

/-- Handle of a keymap item created by `register` (its id and key binding);
an element of the module-level `addon_keymaps` list. -/
structure KmItem where
  id : Nat
  idname : String
  key : String
deriving DecidableEq, Repr

/-- The host state visible to the operator callbacks. -/
structure St where
  /-- `bpy.data.collections` -/
  collections : List Coll
  /-- all scene objects (used to evaluate `context.selected_objects`) -/
  objs : List Obj
  /-- names of the currently selected objects -/
  selection : List String
  /-- name of `context.view_layer.objects.active`, if any -/
  active : Option String
  /-- local-view state of the 3D view's space: `some sel` when local view
  is active (holding the names selected when it was entered), `none`
  otherwise -/
  localView : Option (List String)
  /-- `context.area` -/
  ctxArea : Option Area
  /-- `context.window.screen.areas` -/
  screenAreas : List Area
  /-- truthiness of `context.view_layer` -/
  hasViewLayer : Bool
  /-- `view_layer.layer_collection` -/
  layerRoot : LC
  /-- reports issued via `self.report` (level, message) -/
  reports : List (String × String)
  /-- module-level `addon_keymaps` list -/
  addonKeymaps : List KmItem

/-- Raise flags for the host-API calls that can raise an exception in
Blender; each flag tells whether the corresponding call raises. -/
structure Flags where
  /-- reading `context.selected_objects` raises -/
  rSelectedObjects : Bool
  /-- reading `context.view_layer.objects.active` raises -/
  rActiveGet : Bool
  /-- accessing `context.window.screen.areas` raises -/
  rAreas : Bool
  /-- iterating `area.regions` raises -/
  rRegions : Bool
  /-- reading `area.spaces` raises -/
  rSpaces : Bool
  /-- `bpy.context.temp_override(...)` raises -/
  rTempOverride : Bool
  /-- `bpy.ops.view3d.localview()` raises -/
  rLocalview : Bool
  /-- `bpy.ops.object.select_all(action='DESELECT')` raises -/
  rSelectAll : Bool
  /-- `bpy.ops.object.mode_set(mode='OBJECT')` raises -/
  rModeSet : Bool
  /-- `obj.visible_get()` raises (per object name) -/
  rVisibleGet : String → Bool
  /-- `obj.select_set(True)` raises (per object name) -/
  rSelectSet : String → Bool
  /-- assigning `view_layer.objects.active` raises -/
  rActiveSet : Bool

/-- The normal execution path: no host-API call raises. -/
def Flags.ok : Flags :=
  ⟨false, false, false, false, false, false, false, false, false,
   fun _ => false, fun _ => false, false⟩

@[simp] theorem Flags.ok_rSelectedObjects : Flags.ok.rSelectedObjects = false := rfl
@[simp] theorem Flags.ok_rActiveGet : Flags.ok.rActiveGet = false := rfl
@[simp] theorem Flags.ok_rAreas : Flags.ok.rAreas = false := rfl
@[simp] theorem Flags.ok_rRegions : Flags.ok.rRegions = false := rfl
@[simp] theorem Flags.ok_rSpaces : Flags.ok.rSpaces = false := rfl
@[simp] theorem Flags.ok_rTempOverride : Flags.ok.rTempOverride = false := rfl
@[simp] theorem Flags.ok_rLocalview : Flags.ok.rLocalview = false := rfl
@[simp] theorem Flags.ok_rSelectAll : Flags.ok.rSelectAll = false := rfl
@[simp] theorem Flags.ok_rModeSet : Flags.ok.rModeSet = false := rfl
@[simp] theorem Flags.ok_rVisibleGet (n : String) : Flags.ok.rVisibleGet n = false := rfl
@[simp] theorem Flags.ok_rSelectSet (n : String) : Flags.ok.rSelectSet n = false := rfl
@[simp] theorem Flags.ok_rActiveSet : Flags.ok.rActiveSet = false := rfl

/-- Outcome of one operator `execute` call: normal return with a status, or
an exception propagating out of `execute`. -/
inductive OpStatus where
  | FINISHED
  | CANCELLED
deriving DecidableEq, Repr

inductive ExecResult where
  | ret (status : OpStatus) (st : St)
  | exn (st : St)

/-- The state in which `execute` left the host, whether it returned or
raised. -/
def ExecResult.state : ExecResult → St
  | .ret _ s => s
  | .exn s => s

/-! ### Elementary host-state updates -/

/-- `self.report(level, msg)` -/
def addReport (st : St) (lvl msg : String) : St :=
  { st with reports := st.reports ++ [(lvl, msg)] }

/-- assignment to `view_layer.objects.active` -/
def setActive (st : St) (a : Option String) : St :=
  { st with active := a }

/-- `bpy.ops.object.select_all(action='DESELECT')` -/
def clearSelection (st : St) : St :=
  { st with selection := [] }

/-- `obj.select_set(True)` (selecting an already-selected object changes
nothing) -/
def selectSet (st : St) (n : String) : St :=
  if st.selection.contains n then st else { st with selection := st.selection ++ [n] }

/-- `bpy.ops.view3d.localview()`: toggles local view; entering records the
currently selected objects as the isolated set. -/
def toggleLV (st : St) : St :=
  match st.localView with
  | some _ => { st with localView := none }
  | none => { st with localView := some st.selection }

/-- `_is_in_local_view(space)` (lines 56-62): truthiness of
`space.local_view`; its internal `try` never lets an exception escape. -/
def isInLocalView (st : St) : Bool :=
  st.localView.isSome

/-- `context.selected_objects` -/
def selectedObjects (st : St) : List Obj :=
  st.objs.filter (fun o => st.selection.contains o.name)

/-- `bpy.data.collections.get(name)` -/
def getColl (cs : List Coll) (n : String) : Option Coll :=
  cs.find? (fun c => c.name == n)

/-! ### 3D-view discovery (lines 21-53)

Each function returns `.inl ()` when the modelled host access raises, and
`.inr` with the Python return value otherwise. -/

/-- `_get_3dview_area(context)` (lines 21-29). -/
def get3dviewArea (f : Flags) (st : St) : Sum Unit (Option Area) :=
  match st.ctxArea with
  | some a =>
    if a.type = "VIEW_3D" then .inr (some a)
    else if f.rAreas then .inl ()
    else .inr (st.screenAreas.find? (fun x => x.type == "VIEW_3D"))
  | none =>
    if f.rAreas then .inl ()
    else .inr (st.screenAreas.find? (fun x => x.type == "VIEW_3D"))

/-- `_get_window_region(area)` (lines 32-38); the result is the type of the
region found. -/
def getWindowRegion (f : Flags) : Option Area → Sum Unit (Option String)
  | none => .inr none
  | some a =>
    if f.rRegions then .inl ()
    else .inr (a.regions.find? (fun r => r == "WINDOW"))

/-- `_get_view3d_space(area)` (lines 41-53); the result is the type of the
space found. -/
def getView3dSpace (f : Flags) : Option Area → Sum Unit (Option String)
  | none => .inr none
  | some a =>
    if f.rSpaces then .inl ()
    else if a.spaces.list.isEmpty then .inr none
    else
      match a.spaces.active with
      | some t =>
        if t = "VIEW_3D" then .inr (some t)
        else .inr (a.spaces.list.find? (fun s => s == "VIEW_3D"))
      | none => .inr (a.spaces.list.find? (fun s => s == "VIEW_3D"))

/-! ### String helpers modelling Python primitives -/

/-- `str.split('\n')` on the character list (Python's `''.split('\n')` is
`['']`, matching the `[[]]` base case). -/
def splitNlChars : List Char → List (List Char)
  | [] => [[]]
  | c :: cs =>
    if c = '\n' then [] :: splitNlChars cs
    else
      match splitNlChars cs with
      | h :: t => (c :: h) :: t
      | [] => [[c]]

/-- `self.collection_names.split('\n')`. -/
def splitNl (s : String) : List String :=
  (splitNlChars s.data).map String.mk

/-- Lexicographic strict comparison of character lists (code-point order,
as Python compares strings). -/
def lexLt : List Char → List Char → Bool
  | [], [] => false
  | [], _ :: _ => true
  | _ :: _, [] => false
  | a :: as, b :: bs => if a < b then true else if b < a then false else lexLt as bs

/-- The sort key comparison of `sorted(..., key=lambda c: c.name.lower())`:
strict less-than on the lower-cased names. -/
def lowerLt (a b : String) : Bool :=
  lexLt (a.data.map Char.toLower) (b.data.map Char.toLower)

/-- Stable insertion for `sorted`: `a` goes after every element strictly
below it and before the first element not strictly below it, so elements
with equal keys keep their original relative order, as Python's stable
sort does. -/
def sortedInsert (a : String) : List String → List String
  | [] => [a]
  | b :: l => if lowerLt b a then b :: sortedInsert a l else a :: b :: l

/-- `sorted(names, key=lambda c: c.name.lower())` as a stable insertion
sort (Python's sort is stable; on lists of distinct names the result is
determined by the key order alone). -/
def sortByLower : List String → List String
  | [] => []
  | a :: l => sortedInsert a (sortByLower l)

/-! ### The deselect-everything block (lines 109-116 / 215-222)

`try: select_all(DESELECT) except: try: mode_set(OBJECT);
select_all(DESELECT) except: pass` — every exception is swallowed. -/

def deselectAll (f : Flags) (st : St) : St :=
  if f.rSelectAll then
    -- first select_all raised; fallback: mode_set then select_all again
    if f.rModeSet then st
    else if f.rSelectAll then st
    else clearSelection st
  else clearSelection st

/-! ### Selection loops -/

/-- The per-object selection loop of
`VIEW3D_OT_local_view_collection_activate.execute` (lines 124-131): for
each object, `try: if visible_get(): select_set(True); record first
except: pass`. -/
def objLoopSingle (f : Flags) : List Obj → Option Obj → St → St × Option Obj
  | [], fo, st => (st, fo)
  | o :: rest, fo, st =>
    if f.rVisibleGet o.name then
      objLoopSingle f rest fo st
    else if o.visible then
      if f.rSelectSet o.name then
        objLoopSingle f rest fo st
      else
        objLoopSingle f rest (if fo.isNone then some o else fo) (selectSet st o.name)
    else
      objLoopSingle f rest fo st

/-- Result of the multi-collection selection loop: the state, the first
visible object, the `seen` set, and the names for which `select_set` was
called (the last is instrumentation used to state the at-most-once
property; the Python loop has no such output). -/
structure LoopRes where
  st : St
  firstObj : Option Obj
  seen : List String
  calls : List String

/-- Inner object loop of `VIEW3D_OT_local_view_collections_activate.execute`
(lines 227-236): objects whose name is in `seen` are skipped; otherwise the
name is added to `seen` and `try: if visible_get(): select_set(True);
record first except: pass` runs. -/
def objLoopMulti (f : Flags) : List Obj → List String → Option Obj → List String → St → LoopRes
  | [], seen, fo, tr, st => ⟨st, fo, seen, tr⟩
  | o :: rest, seen, fo, tr, st =>
    if seen.contains o.name then
      objLoopMulti f rest seen fo tr st
    else
      let seen1 := o.name :: seen
      if f.rVisibleGet o.name then
        objLoopMulti f rest seen1 fo tr st
      else if o.visible then
        if f.rSelectSet o.name then
          -- select_set was called (recorded) but raised: no state change
          objLoopMulti f rest seen1 fo (tr ++ [o.name]) st
        else
          objLoopMulti f rest seen1 (if fo.isNone then some o else fo)
            (tr ++ [o.name]) (selectSet st o.name)
      else
        objLoopMulti f rest seen1 fo tr st

/-- Outer collection loop (lines 225-236): per collection the iterator is
`all_objects` when `include_children` (all collections have the attribute)
and `objects` otherwise. -/
def collLoopMulti (f : Flags) (ic : Bool) : List Coll → List String → Option Obj → List String → St → LoopRes
  | [], seen, fo, tr, st => ⟨st, fo, seen, tr⟩
  | c :: rest, seen, fo, tr, st =>
    let it := if ic then c.all_objects else c.objects
    let r := objLoopMulti f it seen fo tr st
    collLoopMulti f ic rest r.seen r.firstObj r.calls r.st

/-! ### Selection restore (lines 146-166 / 249-265) -/

/-- The restore block: `try: if prev_selected: deselect; re-select each
(each select_set in its own try); try: restore active except: pass else:
deselect except: pass`. -/
def restoreBlock (f : Flags) (prevSelected : List Obj) (prevActive : Option String) (st : St) : St :=
  if prevSelected.isEmpty then
    -- no prior selection: leave nothing selected
    if f.rSelectAll then st else clearSelection st
  else
    if f.rSelectAll then st  -- DESELECT raised: rest of the restore block skipped
    else
      let st1 := clearSelection st
      let st2 := prevSelected.foldl
        (fun s o => if f.rSelectSet o.name then s else selectSet s o.name) st1
      if f.rActiveSet then st2
      else
        match prevActive with
        | some a => setActive st2 (some a)
        | none => st2

/-! ### Operator bodies (the code inside the outer `try`) -/

/-- How the code inside the outer `try` block ends: an uncaught exception
escaping the `with` block (`raised`, caught by the outer handler), the
early `return CANCELLED` for no visible objects (`earlyCancel`), or normal
completion (`completed`). -/
inductive BodyOut where
  | raised
  | earlyCancel
  | completed
deriving DecidableEq, Repr

/-- Lines 108-166 of the single-collection body, after the initial
exit-from-local-view step. -/
def bodySingleCore (f : Flags) (p_include : Bool) (coll : Coll)
    (prevSelected : List Obj) (prevActive : Option String) (st1 : St) : St × BodyOut :=
  let st2 := deselectAll f st1
  let iterator := if p_include then coll.all_objects else coll.objects
  let r := objLoopSingle f iterator none st2
  match r.2 with
  | none => (addReport r.1 "WARNING" "Collection has no visible objects", .earlyCancel)
  | some fo =>
    let st4 := if f.rActiveSet then r.1 else setActive r.1 (some fo.name)
    if f.rLocalview then (st4, .raised)
    else
      let st5 := toggleLV st4
      (restoreBlock f prevSelected prevActive st5, .completed)

/-- Lines 95-166: `with temp_override(...):` then, if already in local
view, `bpy.ops.view3d.localview()` to exit, then the core. -/
def bodySingle (f : Flags) (p_include : Bool) (coll : Coll)
    (prevSelected : List Obj) (prevActive : Option String) (st : St) : St × BodyOut :=
  if f.rTempOverride then (st, .raised)
  else if isInLocalView st then
    if f.rLocalview then (st, .raised)
    else bodySingleCore f p_include coll prevSelected prevActive (toggleLV st)
  else bodySingleCore f p_include coll prevSelected prevActive st

/-- Lines 215-265 of the multi-collection body, after the initial
exit-from-local-view step. -/
def bodyMultiCore (f : Flags) (ic : Bool) (colls : List Coll)
    (prevSelected : List Obj) (prevActive : Option String) (st1 : St) : St × BodyOut :=
  let st2 := deselectAll f st1
  let r := collLoopMulti f ic colls [] none [] st2
  match r.firstObj with
  | none => (addReport r.st "WARNING" "Collections have no visible objects", .earlyCancel)
  | some fo =>
    let st4 := if f.rActiveSet then r.st else setActive r.st (some fo.name)
    if f.rLocalview then (st4, .raised)
    else
      let st5 := toggleLV st4
      (restoreBlock f prevSelected prevActive st5, .completed)

/-- Lines 204-265: `with temp_override(...):` then exit local view if
active, then the core. -/
def bodyMulti (f : Flags) (ic : Bool) (colls : List Coll)
    (prevSelected : List Obj) (prevActive : Option String) (st : St) : St × BodyOut :=
  if f.rTempOverride then (st, .raised)
  else if isInLocalView st then
    if f.rLocalview then (st, .raised)
    else bodyMultiCore f ic colls prevSelected prevActive (toggleLV st)
  else bodyMultiCore f ic colls prevSelected prevActive st

/-! ### The operators' `execute` methods -/

/-- Properties of `VIEW3D_OT_local_view_collection_activate`. -/
structure Props1 where
  collection_name : String
  include_children : Bool
deriving DecidableEq, Repr

/-- Properties of `VIEW3D_OT_local_view_collections_activate`. -/
structure Props2 where
  collection_names : String
  include_children : Bool
deriving DecidableEq, Repr

/-- `VIEW3D_OT_local_view_collection_activate.execute` (lines 74-171). -/
def executeSingle (f : Flags) (p : Props1) (st0 : St) : ExecResult :=
  -- prev_selected = list(context.selected_objects)  (line 76, unguarded)
  if f.rSelectedObjects then .exn st0 else
  let prevSelected := selectedObjects st0
  -- prev_active = context.view_layer.objects.active  (line 77, unguarded)
  if f.rActiveGet then .exn st0 else
  let prevActive := st0.active
  match getColl st0.collections p.collection_name with
  | none => .ret .CANCELLED (addReport st0 "WARNING" ("Collection not found: " ++ p.collection_name))
  | some coll =>
    match get3dviewArea f st0 with
    | .inl _ => .exn st0
    | .inr area =>
      match getWindowRegion f area with
      | .inl _ => .exn st0
      | .inr region =>
        match getView3dSpace f area with
        | .inl _ => .exn st0
        | .inr space =>
          if area.isNone || region.isNone || space.isNone then
            .ret .CANCELLED (addReport st0 "WARNING" "No active 3D View found")
          else
            match bodySingle f p.include_children coll prevSelected prevActive st0 with
            | (st1, .raised) =>
              .ret .CANCELLED (addReport st1 "ERROR" "Failed to toggle Local View")
            | (st1, .earlyCancel) => .ret .CANCELLED st1
            | (st1, .completed) => .ret .FINISHED st1

/-- `VIEW3D_OT_local_view_collections_activate.execute` (lines 183-270). -/
def executeMulti (f : Flags) (p : Props2) (st0 : St) : ExecResult :=
  if f.rSelectedObjects then .exn st0 else
  let prevSelected := selectedObjects st0
  if f.rActiveGet then .exn st0 else
  let prevActive := st0.active
  let names := (splitNl p.collection_names).filter (fun n => n != "")
  let colls := names.filterMap (fun n => getColl st0.collections n)
  if colls.isEmpty then
    .ret .CANCELLED (addReport st0 "WARNING" "No valid collections provided")
  else
    match get3dviewArea f st0 with
    | .inl _ => .exn st0
    | .inr area =>
      match getWindowRegion f area with
      | .inl _ => .exn st0
      | .inr region =>
        match getView3dSpace f area with
        | .inl _ => .exn st0
        | .inr space =>
          if area.isNone || region.isNone || space.isNone then
            .ret .CANCELLED (addReport st0 "WARNING" "No active 3D View found")
          else
            match bodyMulti f p.include_children colls prevSelected prevActive st0 with
            | (st1, .raised) =>
              .ret .CANCELLED (addReport st1 "ERROR" "Failed to toggle Local View")
            | (st1, .earlyCancel) => .ret .CANCELLED st1
            | (st1, .completed) => .ret .FINISHED st1

/-! ### Layer-collection tree walks (lines 273-325) -/

mutual
/-- `_find_layer_collection_path(node, target)` (lines 273-284): the
target is compared against `node.collection` first, then the children are
tried in order; the first successful child path is prefixed with `node`
(in Python `[node] + path`, and `if path:` only accepts non-empty paths,
which recursive results always are). -/
def findPath (t : String) : LC → Option (List LC)
  | .mk c cs =>
    if c = t then some [LC.mk c cs]
    else
      match findPathList t cs with
      | some p => some (LC.mk c cs :: p)
      | none => none

/-- The `for child in node.children` loop of `_find_layer_collection_path`. -/
def findPathList (t : String) : List LC → Option (List LC)
  | [] => none
  | n :: rest =>
    match findPath t n with
    | some p => some p
    | none => findPathList t rest
end

mutual
/-- Whether a collection name occurs in the subtree rooted at a node (the
property `_find_layer_collection_path` decides). -/
def occursIn (t : String) : LC → Bool
  | .mk c cs => c == t || occursInList t cs

def occursInList (t : String) : List LC → Bool
  | [] => false
  | n :: rest => occursIn t n || occursInList t rest
end

mutual
/-- The names of the nodes of a layer-collection tree in depth-first
preorder (parent before children, children in listed order). -/
def preorderLC : LC → List String
  | .mk c cs => c :: preorderLCList cs

def preorderLCList : List LC → List String
  | [] => []
  | n :: rest => preorderLC n ++ preorderLCList rest
end

/-- One popup-menu entry: display text, the entry's collection name, and
whether it is clickable. -/
structure Entry where
  text : String
  cname : String
  selectable : Bool
deriving DecidableEq, Repr

mutual
/-- The nested `rec(node, prefix, is_last)` of
`_build_full_layer_tree_entries` (lines 291-306): the node's entry (with
tree-drawing connector when the prefix is non-empty, and
`selectable = bool(prefix)`), followed by the entries of its children. -/
def buildRec : LC → String → Bool → List Entry
  | .mk c cs, pre, isLast =>
    let text := if pre = "" then c
      else pre ++ (if isLast then "└─ " else "├─ ") ++ c
    ⟨text, c, pre != ""⟩ ::
      buildChildren cs (pre ++ (if isLast then "   " else "│  "))

/-- The `for i, child in enumerate(children)` loop: only the final child
has `i == count - 1`. -/
def buildChildren : List LC → String → List Entry
  | [], _ => []
  | [x], pre => buildRec x pre true
  | x :: y :: rest, pre => buildRec x pre false ++ buildChildren (y :: rest) pre
end

/-- `_build_full_layer_tree_entries(root_layer_col)` (lines 287-309):
`rec(root_layer_col, '', True)`. -/
def buildFull (root : LC) : List Entry :=
  buildRec root "" true

/-- `'   ' * n` -/
def strRepeat (s : String) : Nat → String
  | 0 => ""
  | n + 1 => s ++ strRepeat s n

/-- `_build_path_entries(path_nodes)` (lines 312-325). -/
def buildPathEntries (path : List LC) : List Entry :=
  path.enum.map (fun pr =>
    if pr.1 = 0 then ⟨pr.2.cname, pr.2.cname, false⟩
    else ⟨strRepeat "   " (pr.1 - 1) ++ "└─ " ++ pr.2.cname, pr.2.cname, true⟩)

/-! ### `VIEW3D_OT_collection_hierarchy_popup.invoke` (lines 334-398) -/

/-- The observable effect of `invoke`: either an
`INVOKE_DEFAULT` call of `view3d.local_view_collections_activate` with the
given `collection_names` and `include_children` (no popup shown), or the
popup menu with its entries and disabled labels. -/
inductive PopupEffect where
  | opCall (collection_names : String) (include_children : Bool)
  | menu (entries : List Entry) (disabled : List String)
  | noEffect

/-- `VIEW3D_OT_collection_hierarchy_popup.invoke` (lines 334-398). -/
def popupInvoke (st : St) : (OpStatus × PopupEffect) × St :=
  if !st.hasViewLayer then
    ((.CANCELLED, .noEffect), addReport st "WARNING" "No active View Layer")
  else
    let root := st.layerRoot
    let selected := selectedObjects st
    if selected.isEmpty then
      ((.FINISHED, .menu (buildFull root) []), st)
    else if selected.length > 1 then
      -- union of the direct parent collections of all selected objects;
      -- trigger local view for the union directly, no popup
      let unionColls := (selected.flatMap (fun o => o.users_collection)).eraseDups
      let names := String.intercalate "\n" (sortByLower unionColls)
      ((.FINISHED, .opCall names true), st)
    else
      match selected with
      | [] => ((.FINISHED, .menu [] []), st)  -- unreachable: selected is non-empty
      | obj :: _ =>
        let step := fun (acc : List Entry × List String) (cn : String) =>
          match findPath cn root with
          | some path => (acc.1 ++ buildPathEntries path, acc.2)
          | none => (acc.1, acc.2 ++ ["(Outside View Layer) " ++ cn])
        let pr := (sortByLower obj.users_collection).foldl step ([], [])
        ((.FINISHED, .menu pr.1 pr.2), st)

/-! ### `register` / `unregister` (lines 426-461) -/

/-- The host keymap state that `register`/`unregister` touch: whether
`wm.keyconfigs.addon` exists, the keymap items of the addon 'Window'
keymap, a fresh id supply for new items, and the module-level
`addon_keymaps` list. -/
structure RegSt where
  kcAvail : Bool
  kcItems : List KmItem
  nextId : Nat
  addonKeymaps : List KmItem
deriving DecidableEq, Repr

/-- `register` (lines 426-447), restricted to its keymap effect: when the
addon keyconfig exists, one keymap item is created (its key binding
depends on which key name the Blender build accepts: `asterix`/`asterisk`
tell whether the first and second `keymap_items.new` calls succeed; the
third fallback always succeeds) and the `(km, kmi)` handle is appended to
`addon_keymaps`. -/
def register (asterix asterisk : Bool) (s : RegSt) : RegSt :=
  if s.kcAvail then
    let key :=
      if asterix then "NUMPAD_ASTERIX"
      else if asterisk then "NUMPAD_ASTERISK"
      else "NUMPAD_SLASH"
    let kmi : KmItem := ⟨s.nextId, "view3d.collection_hierarchy_popup", key⟩
    { s with
      kcItems := s.kcItems ++ [kmi]
      nextId := s.nextId + 1
      addonKeymaps := s.addonKeymaps ++ [kmi] }
  else s

/-- `unregister` (lines 450-461), restricted to its keymap effect: every
`(km, kmi)` recorded in `addon_keymaps` has `kmi` removed from `km`, then
`addon_keymaps.clear()` runs (in the `finally`). -/
def unregister (s : RegSt) : RegSt :=
  { s with
    kcItems := s.addonKeymaps.foldl (fun acc kmi => acc.erase kmi) s.kcItems
    addonKeymaps := [] }

/-! ## Helper lemmas -/

/-- Each elementary update touches a single field: `selectSet` leaves
everything but `selection` unchanged. -/
theorem selectSet_eq_update (st : St) (n : String) :
    ∃ sel, selectSet st n = { st with selection := sel } := by
  unfold selectSet
  split
  · exact ⟨st.selection, rfl⟩
  · exact ⟨st.selection ++ [n], rfl⟩

theorem mem_selectSet_selection (st : St) (n m : String) :
    m ∈ (selectSet st n).selection ↔ m ∈ st.selection ∨ m = n := by
  unfold selectSet
  split
  · rename_i h
    have h' : n ∈ st.selection := by simpa using h
    constructor
    · exact fun hm => Or.inl hm
    · rintro (hm | rfl)
      · exact hm
      · exact h'
  · simp

/-- The guarded re-selection fold of the restore block only extends the
selection field. -/
theorem foldl_guard_eq_update (f : Flags) (l : List Obj) (st : St) :
    ∃ sel, l.foldl (fun s o => if f.rSelectSet o.name then s else selectSet s o.name) st
      = { st with selection := sel } := by
  induction l generalizing st with
  | nil => exact ⟨st.selection, rfl⟩
  | cons o rest ih =>
    simp only [List.foldl_cons]
    by_cases hg : f.rSelectSet o.name
    · simp only [hg, if_true]
      exact ih st
    · simp only [hg, if_false]
      obtain ⟨y, hy⟩ := selectSet_eq_update st o.name
      rw [hy]
      obtain ⟨sel, hsel⟩ := ih { st with selection := y }
      exact ⟨sel, hsel⟩

/-- Membership in the selection after the unguarded re-selection fold. -/
theorem foldl_selectSet_spec (l : List Obj) (st : St) :
    ∃ sel, l.foldl (fun s o => selectSet s o.name) st = { st with selection := sel } ∧
      ∀ n, n ∈ sel ↔ n ∈ st.selection ∨ n ∈ l.map Obj.name := by
  induction l generalizing st with
  | nil => exact ⟨st.selection, rfl, by simp⟩
  | cons o rest ih =>
    simp only [List.foldl_cons]
    obtain ⟨y, hy⟩ := selectSet_eq_update st o.name
    have hyy : ∀ m, m ∈ y ↔ m ∈ st.selection ∨ m = o.name := by
      intro m
      have h := mem_selectSet_selection st o.name m
      rw [hy] at h
      exact h
    rw [hy]
    obtain ⟨sel, hsel, hmem⟩ := ih { st with selection := y }
    refine ⟨sel, hsel, fun n => ?_⟩
    rw [hmem n]
    have h1 : n ∈ ({ st with selection := y } : St).selection ↔ n ∈ st.selection ∨ n = o.name :=
      hyy n
    rw [h1]
    simp only [List.map_cons, List.mem_cons]
    tauto

theorem deselectAll_eq_update (f : Flags) (st : St) :
    ∃ sel, deselectAll f st = { st with selection := sel } := by
  unfold deselectAll clearSelection
  split_ifs <;> exact ⟨_, rfl⟩

theorem deselectAll_ok (st : St) : deselectAll Flags.ok st = clearSelection st := rfl

/-- The single-collection selection loop only extends the selection field
and the first-object accumulator. -/
theorem objLoopSingle_eq_update (f : Flags) (l : List Obj) (fo : Option Obj) (st : St) :
    ∃ sel fo2, objLoopSingle f l fo st = ({ st with selection := sel }, fo2) := by
  induction l generalizing fo st with
  | nil => exact ⟨st.selection, fo, rfl⟩
  | cons o rest ih =>
    unfold objLoopSingle
    split_ifs <;>
      first
        | exact ih _ _
        | (obtain ⟨y, hy⟩ := selectSet_eq_update st o.name
           rw [hy]
           exact ih _ _)

/-- On the normal path the single-collection loop selects exactly the
visible objects, in order, and returns the first visible object. -/
theorem objLoopSingle_ok (l : List Obj) (fo : Option Obj) (st : St) :
    objLoopSingle Flags.ok l fo st =
      ((l.filter (fun o => o.visible)).foldl (fun s o => selectSet s o.name) st,
        fo.or ((l.filter (fun o => o.visible)).head?)) := by
  induction l generalizing fo st with
  | nil => simp [objLoopSingle]
  | cons o rest ih =>
    unfold objLoopSingle
    simp only [Flags.ok_rVisibleGet, Flags.ok_rSelectSet, Bool.false_eq_true, if_false]
    by_cases hv : o.visible
    · simp only [hv, if_true, List.filter_cons, ite_true, List.foldl_cons, List.head?_cons]
      rw [ih]
      cases fo <;> rfl
    · simp only [hv, Bool.false_eq_true, if_false, List.filter_cons, ite_false]
      exact ih fo st

/-- The multi-collection object loop only extends the selection field and
its accumulators. -/
theorem objLoopMulti_eq_update (f : Flags) (l : List Obj) (seen : List String)
    (fo : Option Obj) (tr : List String) (st : St) :
    ∃ sel fo2 seen2 tr2,
      objLoopMulti f l seen fo tr st = ⟨{ st with selection := sel }, fo2, seen2, tr2⟩ := by
  induction l generalizing seen fo tr st with
  | nil => exact ⟨st.selection, fo, seen, tr, rfl⟩
  | cons o rest ih =>
    unfold objLoopMulti
    split_ifs <;>
      first
        | exact ih _ _ _ _
        | (obtain ⟨y, hy⟩ := selectSet_eq_update st o.name
           rw [hy]
           exact ih _ _ _ _)

/-- The multi-collection outer loop only extends the selection field and
its accumulators. -/
theorem collLoopMulti_eq_update (f : Flags) (ic : Bool) (cs : List Coll) (seen : List String)
    (fo : Option Obj) (tr : List String) (st : St) :
    ∃ sel fo2 seen2 tr2,
      collLoopMulti f ic cs seen fo tr st = ⟨{ st with selection := sel }, fo2, seen2, tr2⟩ := by
  induction cs generalizing seen fo tr st with
  | nil => exact ⟨st.selection, fo, seen, tr, rfl⟩
  | cons c rest ih =>
    simp only [collLoopMulti]
    obtain ⟨y, fo2, seen2, tr2, hy⟩ :=
      objLoopMulti_eq_update f (if ic then c.all_objects else c.objects) seen fo tr st
    rw [hy]
    exact ih _ _ _ _

/-- The restore block only changes the selection and the active object. -/
theorem restoreBlock_eq_update (f : Flags) (ps : List Obj) (pa : Option String) (st : St) :
    ∃ sel act, restoreBlock f ps pa st = { st with selection := sel, active := act } := by
  unfold restoreBlock clearSelection
  split_ifs with h1 h2 h3
  · exact ⟨st.selection, st.active, rfl⟩
  · exact ⟨[], st.active, rfl⟩
  · exact ⟨st.selection, st.active, rfl⟩
  · dsimp only
    obtain ⟨sel, hsel⟩ := foldl_guard_eq_update f ps { st with selection := [] }
    rw [hsel]
    exact ⟨sel, st.active, rfl⟩
  · dsimp only
    obtain ⟨sel, hsel⟩ := foldl_guard_eq_update f ps { st with selection := [] }
    rw [hsel]
    cases pa with
    | none => exact ⟨sel, st.active, rfl⟩
    | some a => exact ⟨sel, some a, rfl⟩

/-- On the normal path with an empty prior selection the restore block
just deselects everything. -/
theorem restoreBlock_ok_nil (pa : Option String) (st : St) :
    restoreBlock Flags.ok [] pa st = clearSelection st := rfl

/-- On the normal path with a non-empty prior selection the restore block
re-selects exactly the previously selected objects and restores the
previous active object when there was one. -/
theorem restoreBlock_ok_spec (ps : List Obj) (hps : ps ≠ []) (pa : Option String) (st : St) :
    ∃ sel,
      restoreBlock Flags.ok ps pa st =
        (match pa with
          | some a => { st with selection := sel, active := some a }
          | none => { st with selection := sel }) ∧
      ∀ n, n ∈ sel ↔ n ∈ ps.map Obj.name := by
  unfold restoreBlock
  have hne : ps.isEmpty = false := by
    cases ps with
    | nil => exact absurd rfl hps
    | cons a l => rfl
  simp only [hne, Bool.false_eq_true, if_false, Flags.ok_rSelectAll, Flags.ok_rSelectSet,
    Flags.ok_rActiveSet, clearSelection]
  obtain ⟨sel, hsel, hmem⟩ := foldl_selectSet_spec ps { st with selection := [] }
  refine ⟨sel, ?_, fun n => ?_⟩
  · rw [hsel]
    cases pa with
    | none => rfl
    | some a => rfl
  · rw [hmem n]
    simp

/-! ### Preservation of the module-level `addon_keymaps` list -/

theorem akm_addReport (st : St) (l m : String) :
    (addReport st l m).addonKeymaps = st.addonKeymaps := rfl

theorem akm_setActive (st : St) (a : Option String) :
    (setActive st a).addonKeymaps = st.addonKeymaps := rfl

theorem akm_clearSelection (st : St) :
    (clearSelection st).addonKeymaps = st.addonKeymaps := rfl

theorem akm_selectSet (st : St) (n : String) :
    (selectSet st n).addonKeymaps = st.addonKeymaps := by
  unfold selectSet
  split <;> rfl

theorem akm_toggleLV (st : St) :
    (toggleLV st).addonKeymaps = st.addonKeymaps := by
  unfold toggleLV
  split <;> rfl

theorem akm_deselectAll (f : Flags) (st : St) :
    (deselectAll f st).addonKeymaps = st.addonKeymaps := by
  obtain ⟨s, h⟩ := deselectAll_eq_update f st
  rw [h]

theorem akm_objLoopSingle (f : Flags) (l : List Obj) (fo : Option Obj) (st : St) :
    (objLoopSingle f l fo st).1.addonKeymaps = st.addonKeymaps := by
  obtain ⟨sel, fo2, h⟩ := objLoopSingle_eq_update f l fo st
  rw [h]

theorem akm_collLoopMulti (f : Flags) (ic : Bool) (cs : List Coll) (seen : List String)
    (fo : Option Obj) (tr : List String) (st : St) :
    (collLoopMulti f ic cs seen fo tr st).st.addonKeymaps = st.addonKeymaps := by
  obtain ⟨sel, fo2, seen2, tr2, h⟩ := collLoopMulti_eq_update f ic cs seen fo tr st
  rw [h]

theorem akm_restoreBlock (f : Flags) (ps : List Obj) (pa : Option String) (st : St) :
    (restoreBlock f ps pa st).addonKeymaps = st.addonKeymaps := by
  obtain ⟨sel, act, h⟩ := restoreBlock_eq_update f ps pa st
  rw [h]

theorem akm_bodySingleCore (f : Flags) (ic : Bool) (coll : Coll) (ps : List Obj)
    (pa : Option String) (st1 : St) :
    (bodySingleCore f ic coll ps pa st1).1.addonKeymaps = st1.addonKeymaps := by
  simp only [bodySingleCore]
  rcases hfo : (objLoopSingle f (if ic then coll.all_objects else coll.objects) none
      (deselectAll f st1)).2 with _ | fo
  · simp [akm_addReport, akm_objLoopSingle, akm_deselectAll]
  · dsimp only
    split_ifs <;>
      simp [akm_restoreBlock, akm_toggleLV, akm_setActive, akm_objLoopSingle, akm_deselectAll]

theorem akm_bodySingle (f : Flags) (ic : Bool) (coll : Coll) (ps : List Obj)
    (pa : Option String) (st : St) :
    (bodySingle f ic coll ps pa st).1.addonKeymaps = st.addonKeymaps := by
  unfold bodySingle
  split_ifs <;>
    simp [akm_bodySingleCore, akm_toggleLV]

theorem akm_bodyMultiCore (f : Flags) (ic : Bool) (colls : List Coll) (ps : List Obj)
    (pa : Option String) (st1 : St) :
    (bodyMultiCore f ic colls ps pa st1).1.addonKeymaps = st1.addonKeymaps := by
  simp only [bodyMultiCore]
  rcases hfo : (collLoopMulti f ic colls [] none [] (deselectAll f st1)).firstObj with _ | fo
  · simp [akm_addReport, akm_collLoopMulti, akm_deselectAll]
  · dsimp only
    split_ifs <;>
      simp [akm_restoreBlock, akm_toggleLV, akm_setActive, akm_collLoopMulti, akm_deselectAll]

theorem akm_bodyMulti (f : Flags) (ic : Bool) (colls : List Coll) (ps : List Obj)
    (pa : Option String) (st : St) :
    (bodyMulti f ic colls ps pa st).1.addonKeymaps = st.addonKeymaps := by
  unfold bodyMulti
  split_ifs <;>
    simp [akm_bodyMultiCore, akm_toggleLV]

theorem akm_executeSingle (f : Flags) (p : Props1) (st : St) :
    (executeSingle f p st).state.addonKeymaps = st.addonKeymaps := by
  unfold executeSingle
  dsimp only
  split_ifs
  · rfl
  · rfl
  · rcases getColl st.collections p.collection_name with _ | coll
    · rfl
    · dsimp only
      rcases get3dviewArea f st with u | area
      · rfl
      · dsimp only
        rcases getWindowRegion f area with u | region
        · rfl
        · dsimp only
          rcases getView3dSpace f area with u | space
          · rfl
          · dsimp only
            split_ifs
            · rfl
            · rcases hb : bodySingle f p.include_children coll (selectedObjects st) st.active st
                with ⟨st1, bo⟩
              have hak : st1.addonKeymaps = st.addonKeymaps := by
                have h2 := akm_bodySingle f p.include_children coll (selectedObjects st)
                  st.active st
                rw [hb] at h2
                exact h2
              cases bo <;> simp [ExecResult.state, akm_addReport, hak]

theorem akm_executeMulti (f : Flags) (p : Props2) (st : St) :
    (executeMulti f p st).state.addonKeymaps = st.addonKeymaps := by
  unfold executeMulti
  dsimp only
  split_ifs
  · rfl
  · rfl
  · rfl
  · rcases get3dviewArea f st with u | area
    · rfl
    · dsimp only
      rcases getWindowRegion f area with u | region
      · rfl
      · dsimp only
        rcases getView3dSpace f area with u | space
        · rfl
        · dsimp only
          split_ifs
          · rfl
          · rcases hb : bodyMulti f p.include_children
                (((splitNl p.collection_names).filter (fun n => n != "")).filterMap
                  (fun n => getColl st.collections n))
                (selectedObjects st) st.active st with ⟨st1, bo⟩
            have hak : st1.addonKeymaps = st.addonKeymaps := by
              have h2 := akm_bodyMulti f p.include_children
                (((splitNl p.collection_names).filter (fun n => n != "")).filterMap
                  (fun n => getColl st.collections n))
                (selectedObjects st) st.active st
              rw [hb] at h2
              exact h2
            cases bo <;> simp [ExecResult.state, akm_addReport, hak]

theorem akm_popupInvoke (st : St) :
    ((popupInvoke st).2).addonKeymaps = st.addonKeymaps := by
  unfold popupInvoke
  split_ifs
  · rfl
  · dsimp only
    rcases selectedObjects st with _ | ⟨o, _ | ⟨o2, l2⟩⟩
    · rfl
    · rfl
    · have h2 : (o :: o2 :: l2).length > 1 := by
        simp only [List.length_cons]
        omega
      simp only [List.isEmpty_cons, Bool.false_eq_true, if_false, if_pos h2]

/-! ### Discovery helpers never raise when their raise flags are off -/

theorem get3dviewArea_no_raise (f : Flags) (st : St) (h : f.rAreas = false) :
    ∃ oa, get3dviewArea f st = Sum.inr oa := by
  unfold get3dviewArea
  simp only [h, Bool.false_eq_true, if_false]
  rcases st.ctxArea with _ | a
  · exact ⟨_, rfl⟩
  · dsimp only
    split_ifs <;> exact ⟨_, rfl⟩

theorem getWindowRegion_no_raise (f : Flags) (oa : Option Area) (h : f.rRegions = false) :
    ∃ r, getWindowRegion f oa = Sum.inr r := by
  rcases oa with _ | a
  · exact ⟨none, rfl⟩
  · unfold getWindowRegion
    simp only [h, Bool.false_eq_true, if_false]
    exact ⟨_, rfl⟩

theorem getView3dSpace_no_raise (f : Flags) (oa : Option Area) (h : f.rSpaces = false) :
    ∃ s, getView3dSpace f oa = Sum.inr s := by
  rcases oa with _ | a
  · exact ⟨none, rfl⟩
  · unfold getView3dSpace
    simp only [h, Bool.false_eq_true, if_false]
    split_ifs
    · exact ⟨_, rfl⟩
    · rcases a.spaces.active with _ | t
      · exact ⟨_, rfl⟩
      · dsimp only
        split_ifs <;> exact ⟨_, rfl⟩

/-! ### Normal-path behaviour of the operator bodies -/

theorem toggleLV_eq_update (st : St) : ∃ lv, toggleLV st = { st with localView := lv } := by
  unfold toggleLV
  split <;> exact ⟨_, rfl⟩

theorem toggleLV_of_none (st : St) (h : st.localView = none) :
    toggleLV st = { st with localView := some st.selection } := by
  simp only [toggleLV, h]

theorem restoreBlock_localView (f : Flags) (ps : List Obj) (pa : Option String) (st : St) :
    (restoreBlock f ps pa st).localView = st.localView := by
  obtain ⟨sel, act, h⟩ := restoreBlock_eq_update f ps pa st
  rw [h]

theorem restoreBlock_reports (f : Flags) (ps : List Obj) (pa : Option String) (st : St) :
    (restoreBlock f ps pa st).reports = st.reports := by
  obtain ⟨sel, act, h⟩ := restoreBlock_eq_update f ps pa st
  rw [h]

/-- Entering the body on the normal path: the `with temp_override` header
succeeds, and the initial exit-from-local-view step leaves a state out of
local view with selection, active object and reports unchanged. -/
theorem bodySingle_ok_eq (ic : Bool) (coll : Coll) (ps : List Obj) (pa : Option String) (st : St) :
    ∃ st1, bodySingle Flags.ok ic coll ps pa st = bodySingleCore Flags.ok ic coll ps pa st1 ∧
      st1.localView = none ∧ st1.selection = st.selection ∧ st1.active = st.active ∧
      st1.reports = st.reports := by
  unfold bodySingle
  simp only [Flags.ok_rTempOverride, Flags.ok_rLocalview, Bool.false_eq_true, if_false]
  by_cases h : isInLocalView st
  · rw [if_pos h]
    unfold isInLocalView at h
    rcases hl : st.localView with _ | v
    · rw [hl] at h
      exact absurd h (by simp)
    · refine ⟨toggleLV st, rfl, ?_, ?_, ?_, ?_⟩ <;>
        simp [toggleLV, hl]
  · rw [if_neg h]
    unfold isInLocalView at h
    refine ⟨st, rfl, ?_, rfl, rfl, rfl⟩
    simpa using h

theorem bodyMulti_ok_eq (ic : Bool) (colls : List Coll) (ps : List Obj) (pa : Option String)
    (st : St) :
    ∃ st1, bodyMulti Flags.ok ic colls ps pa st = bodyMultiCore Flags.ok ic colls ps pa st1 ∧
      st1.localView = none ∧ st1.selection = st.selection ∧ st1.active = st.active ∧
      st1.reports = st.reports := by
  unfold bodyMulti
  simp only [Flags.ok_rTempOverride, Flags.ok_rLocalview, Bool.false_eq_true, if_false]
  by_cases h : isInLocalView st
  · rw [if_pos h]
    unfold isInLocalView at h
    rcases hl : st.localView with _ | v
    · rw [hl] at h
      exact absurd h (by simp)
    · refine ⟨toggleLV st, rfl, ?_, ?_, ?_, ?_⟩ <;>
        simp [toggleLV, hl]
  · rw [if_neg h]
    unfold isInLocalView at h
    refine ⟨st, rfl, ?_, rfl, rfl, rfl⟩
    simpa using h

/-- Full description of the single-collection body core on the normal
path, from a state that is not in local view. -/
theorem bodySingleCore_ok (ic : Bool) (coll : Coll) (ps : List Obj) (pa : Option String)
    (st1 : St) (hlv : st1.localView = none) :
    (((if ic then coll.all_objects else coll.objects).filter (fun o => o.visible)) = [] →
      ∃ st2, bodySingleCore Flags.ok ic coll ps pa st1 = (st2, .earlyCancel) ∧
        st2.localView = none ∧
        st2.reports = st1.reports ++ [("WARNING", "Collection has no visible objects")]) ∧
    (∀ o rest,
      ((if ic then coll.all_objects else coll.objects).filter (fun o => o.visible)) = o :: rest →
      ∃ st2, bodySingleCore Flags.ok ic coll ps pa st1 = (st2, .completed) ∧
        (∃ snap, st2.localView = some snap ∧
          ∀ n, n ∈ snap ↔ n ∈ (o :: rest).map Obj.name) ∧
        (ps = [] → st2.selection = []) ∧
        (ps ≠ [] → (∀ n, n ∈ st2.selection ↔ n ∈ ps.map Obj.name) ∧
          ∀ a, pa = some a → st2.active = some a) ∧
        st2.reports = st1.reports) := by
  simp only [bodySingleCore, deselectAll_ok, clearSelection]
  rw [objLoopSingle_ok]
  constructor
  · intro hvis
    rw [hvis]
    simp only [List.foldl_nil, List.head?_nil, Option.none_or]
    exact ⟨_, rfl, by simp [addReport, hlv], by simp [addReport]⟩
  · intro o rest hvis
    rw [hvis]
    simp only [List.head?_cons, Option.none_or, Flags.ok_rActiveSet, Flags.ok_rLocalview,
      Bool.false_eq_true, if_false]
    obtain ⟨sel, hS, hmem⟩ := foldl_selectSet_spec (o :: rest) { st1 with selection := [] }
    rw [hS]
    have hmem2 : ∀ n, n ∈ sel ↔ n ∈ (o :: rest).map Obj.name := by
      intro n
      rw [hmem n]
      simp
    have hlv4 : (setActive { st1 with selection := sel } (some o.name)).localView = none := hlv
    rw [toggleLV_of_none _ hlv4]
    refine ⟨_, rfl, ⟨sel, ?_, hmem2⟩, ?_, ?_, ?_⟩
    · rw [restoreBlock_localView]
      rfl
    · intro hp
      rw [hp, restoreBlock_ok_nil]
      rfl
    · intro hp
      obtain ⟨sel2, hrb, hmem3⟩ := restoreBlock_ok_spec ps hp pa _
      rw [hrb]
      cases pa with
      | none => exact ⟨fun n => hmem3 n, fun a ha => by cases ha⟩
      | some a => exact ⟨fun n => hmem3 n, fun b hb => by cases hb; rfl⟩
    · rw [restoreBlock_reports]
      rfl

/-- When the single-collection body completes normally on the normal
path, its final selection and active object are given by the restore
block: the previous selection is re-selected (or cleared when it was
empty) and the previous active object restored. -/
theorem bodySingleCore_ok_completed (ic : Bool) (coll : Coll) (ps : List Obj)
    (pa : Option String) (st1 st2 : St)
    (h : bodySingleCore Flags.ok ic coll ps pa st1 = (st2, .completed)) :
    (ps = [] → st2.selection = []) ∧
    (ps ≠ [] → (∀ n, n ∈ st2.selection ↔ n ∈ ps.map Obj.name) ∧
      ∀ a, pa = some a → st2.active = some a) := by
  simp only [bodySingleCore, deselectAll_ok, clearSelection, Flags.ok_rActiveSet,
    Flags.ok_rLocalview, Bool.false_eq_true, if_false] at h
  split at h
  · simp at h
  · rw [Prod.mk.injEq] at h
    obtain ⟨h1, h2⟩ := h
    subst h1
    constructor
    · intro hp
      rw [hp, restoreBlock_ok_nil]
      rfl
    · intro hp
      obtain ⟨sel2, hrb, hmem3⟩ := restoreBlock_ok_spec ps hp pa _
      rw [hrb]
      cases pa with
      | none => exact ⟨fun n => hmem3 n, fun a ha => by cases ha⟩
      | some a => exact ⟨fun n => hmem3 n, fun b hb => by cases hb; rfl⟩

/-- Same as `bodySingleCore_ok_completed` for the multi-collection body. -/
theorem bodyMultiCore_ok_completed (ic : Bool) (colls : List Coll) (ps : List Obj)
    (pa : Option String) (st1 st2 : St)
    (h : bodyMultiCore Flags.ok ic colls ps pa st1 = (st2, .completed)) :
    (ps = [] → st2.selection = []) ∧
    (ps ≠ [] → (∀ n, n ∈ st2.selection ↔ n ∈ ps.map Obj.name) ∧
      ∀ a, pa = some a → st2.active = some a) := by
  simp only [bodyMultiCore, deselectAll_ok, clearSelection, Flags.ok_rActiveSet,
    Flags.ok_rLocalview, Bool.false_eq_true, if_false] at h
  split at h
  · simp at h
  · rw [Prod.mk.injEq] at h
    obtain ⟨h1, h2⟩ := h
    subst h1
    constructor
    · intro hp
      rw [hp, restoreBlock_ok_nil]
      rfl
    · intro hp
      obtain ⟨sel2, hrb, hmem3⟩ := restoreBlock_ok_spec ps hp pa _
      rw [hrb]
      cases pa with
      | none => exact ⟨fun n => hmem3 n, fun a ha => by cases ha⟩
      | some a => exact ⟨fun n => hmem3 n, fun b hb => by cases hb; rfl⟩

/-! ## Concrete fixtures used by the witness theorems -/

def oCube : Obj := ⟨"Cube", true, ["A"]⟩

def oLamp : Obj := ⟨"Lamp", false, ["A"]⟩

def cA : Coll := ⟨"A", [oCube, oLamp], [oCube, oLamp]⟩

def viewArea : Area := ⟨"VIEW_3D", ["WINDOW"], ⟨some "VIEW_3D", ["VIEW_3D"]⟩⟩

def sampleTree : LC := .mk "Scene Collection" [.mk "A" [.mk "B" []], .mk "C" []]

/-- A scene with one collection "A" holding a visible Cube and a hidden
Lamp, an available 3D view, nothing selected. -/
def sampleSt : St :=
  ⟨[cA], [oCube, oLamp], [], none, none, some viewArea, [], true, sampleTree, [], []⟩

/-- Same scene but the operator is invoked without a 3D-view context area:
the discovery helpers must go through `context.window.screen.areas`. -/
def stNoCtx : St :=
  ⟨[cA], [oCube, oLamp], [], none, none, none, [viewArea], true, sampleTree, [], []⟩

/-- Flags where the only raising host call is the access to
`context.window.screen.areas` inside `_get_3dview_area` (for example
because `context.window` is `None`). -/
def raiseAreasFlags : Flags :=
  ⟨false, false, true, false, false, false, false, false, false,
   fun _ => false, fun _ => false, false⟩

/-- Flags where every pre-`try` host read succeeds but the calls inside
the outer `try` (`temp_override`, `localview`, `select_all`, ...) all
raise. -/
def raiseBodyFlags : Flags :=
  ⟨false, false, false, false, false, true, true, true, true,
   fun _ => true, fun _ => true, true⟩

/-! ## Claim theorems -/

/-- C3: `register` followed by `unregister` is a round-trip on the
addon-owned keymap state: starting from a clean `addon_keymaps` list with
a fresh item id supply, `register` appends to `addon_keymaps` exactly the
keymap items it creates in the keymap, and `unregister` removes every
recorded item from the keymap and empties `addon_keymaps`, so no
addon-installed keymap item remains. -/
theorem c3_register_unregister_roundtrip (asterix asterisk : Bool) (s : RegSt)
    (hclean : s.addonKeymaps = [])
    (hfresh : ∀ it ∈ s.kcItems, it.id ≠ s.nextId) :
    (register asterix asterisk s).kcItems =
      s.kcItems ++ (register asterix asterisk s).addonKeymaps ∧
    (unregister (register asterix asterisk s)).addonKeymaps = [] ∧
    (unregister (register asterix asterisk s)).kcItems = s.kcItems := by
  unfold register unregister
  by_cases hk : s.kcAvail
  · simp only [hk, if_true]
    rw [hclean]
    refine ⟨by simp, by trivial, ?_⟩
    simp only [List.nil_append, List.foldl_cons, List.foldl_nil]
    rw [List.erase_append_right]
    · simp [List.erase_cons_head]
    · intro hmem
      exact hfresh _ hmem rfl
  · simp only [hk, Bool.false_eq_true, if_false]
    rw [hclean]
    exact ⟨by simp, by trivial, rfl⟩

/-- Witness for C3 at a concrete state: one pre-existing foreign keymap
item, clean `addon_keymaps`. -/
theorem c3_witness :
    (([⟨0, "other.op", "K"⟩] : List KmItem) = [] → False) ∧
    (register true false ⟨true, [⟨0, "other.op", "K"⟩], 1, []⟩).kcItems =
      [⟨0, "other.op", "K"⟩] ++
        (register true false ⟨true, [⟨0, "other.op", "K"⟩], 1, []⟩).addonKeymaps ∧
    (unregister (register true false ⟨true, [⟨0, "other.op", "K"⟩], 1, []⟩)).addonKeymaps = [] ∧
    (unregister (register true false ⟨true, [⟨0, "other.op", "K"⟩], 1, []⟩)).kcItems =
      [⟨0, "other.op", "K"⟩] := by
  exact ⟨by decide,
    c3_register_unregister_roundtrip true false ⟨true, [⟨0, "other.op", "K"⟩], 1, []⟩
      rfl (by decide)⟩

/-- C7: no operator callback reads or writes the module-level
`addon_keymaps` list: `execute` of both local-view operators (under any
exception behaviour of the host) and `invoke` of the hierarchy popup leave
it exactly as it was. -/
theorem c7_callbacks_preserve_addon_keymaps (f : Flags) (p1 : Props1) (p2 : Props2) (st : St) :
    (executeSingle f p1 st).state.addonKeymaps = st.addonKeymaps ∧
    (executeMulti f p2 st).state.addonKeymaps = st.addonKeymaps ∧
    ((popupInvoke st).2).addonKeymaps = st.addonKeymaps :=
  ⟨akm_executeSingle f p1 st, akm_executeMulti f p2 st, akm_popupInvoke st⟩

/-- C2 counterexample: not every host-API call is wrapped in exception
suppression.  With a collection that resolves and `context.area` absent,
an exception raised by the access to `context.window.screen.areas` inside
`_get_3dview_area` (line 26, called at line 84 outside any `try`)
propagates out of `execute`. -/
theorem c2_counterexample :
    executeSingle raiseAreasFlags ⟨"A", true⟩ stNoCtx = .exn stNoCtx := rfl

/-- C2 (amended): the host-API calls made before the outer `try` block
(capturing the selection and active object, and locating the 3D-view
area/region/space) are unguarded, but whenever none of them raises,
`execute` of both operators returns normally — every host-API call from
the outer `try` onward is either swallowed locally or caught by the
surrounding handler. -/
theorem c2_amended_no_propagation_from_body (f : Flags) (p1 : Props1) (p2 : Props2) (st : St)
    (h1 : f.rSelectedObjects = false) (h2 : f.rActiveGet = false)
    (h3 : f.rAreas = false) (h4 : f.rRegions = false) (h5 : f.rSpaces = false) :
    (∃ status st', executeSingle f p1 st = .ret status st') ∧
    (∃ status st', executeMulti f p2 st = .ret status st') := by
  constructor
  · unfold executeSingle
    dsimp only
    simp only [h1, h2, Bool.false_eq_true, if_false]
    rcases getColl st.collections p1.collection_name with _ | coll
    · exact ⟨_, _, rfl⟩
    · dsimp only
      obtain ⟨oa, hoa⟩ := get3dviewArea_no_raise f st h3
      rw [hoa]
      dsimp only
      obtain ⟨r, hr⟩ := getWindowRegion_no_raise f oa h4
      rw [hr]
      dsimp only
      obtain ⟨sp, hsp⟩ := getView3dSpace_no_raise f oa h5
      rw [hsp]
      dsimp only
      split_ifs
      · exact ⟨_, _, rfl⟩
      · rcases bodySingle f p1.include_children coll (selectedObjects st) st.active st
          with ⟨st1, bo⟩
        cases bo
        · exact ⟨_, _, rfl⟩
        · exact ⟨_, _, rfl⟩
        · exact ⟨_, _, rfl⟩
  · unfold executeMulti
    dsimp only
    simp only [h1, h2, Bool.false_eq_true, if_false]
    split_ifs
    · exact ⟨_, _, rfl⟩
    · obtain ⟨oa, hoa⟩ := get3dviewArea_no_raise f st h3
      rw [hoa]
      dsimp only
      obtain ⟨r, hr⟩ := getWindowRegion_no_raise f oa h4
      rw [hr]
      dsimp only
      obtain ⟨sp, hsp⟩ := getView3dSpace_no_raise f oa h5
      rw [hsp]
      dsimp only
      split_ifs
      · exact ⟨_, _, rfl⟩
      · rcases bodyMulti f p2.include_children
            (((splitNl p2.collection_names).filter (fun n => n != "")).filterMap
              (fun n => getColl st.collections n))
            (selectedObjects st) st.active st with ⟨st1, bo⟩
        cases bo
        · exact ⟨_, _, rfl⟩
        · exact ⟨_, _, rfl⟩
        · exact ⟨_, _, rfl⟩

/-- Witness for the amended C2: with every in-`try` host call raising but
the pre-`try` reads succeeding, both operators still return normally. -/
theorem c2_amended_witness :
    raiseBodyFlags.rSelectedObjects = false ∧
    (∃ status st', executeSingle raiseBodyFlags ⟨"A", true⟩ sampleSt = .ret status st') ∧
    (∃ status st', executeMulti raiseBodyFlags ⟨"A", true⟩ sampleSt = .ret status st') := by
  obtain ⟨hs, hm⟩ := c2_amended_no_propagation_from_body raiseBodyFlags ⟨"A", true⟩
    ⟨"A", true⟩ sampleSt rfl rfl rfl rfl rfl
  exact ⟨rfl, hs, hm⟩

/-- C8: when either `execute` returns CANCELLED because the named
collection(s) cannot be resolved or because no 3D-view area/region/space
is found, no host state has been mutated: selection, active object and
local-view state are exactly as at entry. -/
theorem c8_early_cancel_no_mutation (p1 : Props1) (p2 : Props2) (st : St) :
    (getColl st.collections p1.collection_name = none →
      ∃ st', executeSingle Flags.ok p1 st = .ret .CANCELLED st' ∧
        st'.selection = st.selection ∧ st'.active = st.active ∧
        st'.localView = st.localView) ∧
    (∀ coll area region space,
      getColl st.collections p1.collection_name = some coll →
      get3dviewArea Flags.ok st = .inr area →
      getWindowRegion Flags.ok area = .inr region →
      getView3dSpace Flags.ok area = .inr space →
      (area.isNone || region.isNone || space.isNone) = true →
      ∃ st', executeSingle Flags.ok p1 st = .ret .CANCELLED st' ∧
        st'.selection = st.selection ∧ st'.active = st.active ∧
        st'.localView = st.localView) ∧
    ((((splitNl p2.collection_names).filter (fun n => n != "")).filterMap
        (fun n => getColl st.collections n)) = [] →
      ∃ st', executeMulti Flags.ok p2 st = .ret .CANCELLED st' ∧
        st'.selection = st.selection ∧ st'.active = st.active ∧
        st'.localView = st.localView) ∧
    (∀ area region space,
      (((splitNl p2.collection_names).filter (fun n => n != "")).filterMap
        (fun n => getColl st.collections n)) ≠ [] →
      get3dviewArea Flags.ok st = .inr area →
      getWindowRegion Flags.ok area = .inr region →
      getView3dSpace Flags.ok area = .inr space →
      (area.isNone || region.isNone || space.isNone) = true →
      ∃ st', executeMulti Flags.ok p2 st = .ret .CANCELLED st' ∧
        st'.selection = st.selection ∧ st'.active = st.active ∧
        st'.localView = st.localView) := by
  refine ⟨?_, ?_, ?_, ?_⟩
  · intro hc
    unfold executeSingle
    dsimp only
    simp only [Flags.ok_rSelectedObjects, Flags.ok_rActiveGet, Bool.false_eq_true, if_false]
    rw [hc]
    exact ⟨_, rfl, rfl, rfl, rfl⟩
  · intro coll area region space hc ha hr hs hguard
    unfold executeSingle
    dsimp only
    simp only [Flags.ok_rSelectedObjects, Flags.ok_rActiveGet, Bool.false_eq_true, if_false]
    rw [hc]
    dsimp only
    rw [ha]
    dsimp only
    rw [hr]
    dsimp only
    rw [hs]
    dsimp only
    rw [if_pos hguard]
    exact ⟨_, rfl, rfl, rfl, rfl⟩
  · intro hc
    unfold executeMulti
    dsimp only
    simp only [Flags.ok_rSelectedObjects, Flags.ok_rActiveGet, Bool.false_eq_true, if_false]
    rw [hc]
    exact ⟨_, rfl, rfl, rfl, rfl⟩
  · intro area region space hc ha hr hs hguard
    unfold executeMulti
    dsimp only
    simp only [Flags.ok_rSelectedObjects, Flags.ok_rActiveGet, Bool.false_eq_true, if_false]
    rw [if_neg ?hne]
    case hne =>
      simp only [List.isEmpty_iff]
      exact hc
    rw [ha]
    dsimp only
    rw [hr]
    dsimp only
    rw [hs]
    dsimp only
    rw [if_pos hguard]
    exact ⟨_, rfl, rfl, rfl, rfl⟩

/-- Witness for C8: a state whose only 3D-view lookup fails (no area at
all) and a name that resolves to no collection. -/
theorem c8_witness :
    getColl (⟨[cA], [oCube], [], none, none, none, [], true, sampleTree, [], []⟩ : St).collections
      "Nope" = none ∧
    (∃ st', executeSingle Flags.ok ⟨"Nope", true⟩
        (⟨[cA], [oCube], [], none, none, none, [], true, sampleTree, [], []⟩ : St) =
          .ret .CANCELLED st' ∧
      st'.selection = [] ∧ st'.active = none ∧ st'.localView = none) := by
  have h := (c8_early_cancel_no_mutation ⟨"Nope", true⟩ ⟨"", true⟩
    (⟨[cA], [oCube], [], none, none, none, [], true, sampleTree, [], []⟩ : St)).1 rfl
  exact ⟨rfl, h⟩

/-- C10: whenever either `execute` returns FINISHED on the normal path,
the pre-invocation selection is restored: a non-empty previous selection
is re-selected exactly and the previous active object (when there was
one) is restored; an empty previous selection leaves nothing selected. -/
theorem c10_restore_on_finished (p1 : Props1) (p2 : Props2) (st : St) :
    (∀ st', executeSingle Flags.ok p1 st = .ret .FINISHED st' →
      (selectedObjects st = [] → st'.selection = []) ∧
      (selectedObjects st ≠ [] →
        (∀ n, n ∈ st'.selection ↔ n ∈ (selectedObjects st).map Obj.name) ∧
        ∀ a, st.active = some a → st'.active = some a)) ∧
    (∀ st', executeMulti Flags.ok p2 st = .ret .FINISHED st' →
      (selectedObjects st = [] → st'.selection = []) ∧
      (selectedObjects st ≠ [] →
        (∀ n, n ∈ st'.selection ↔ n ∈ (selectedObjects st).map Obj.name) ∧
        ∀ a, st.active = some a → st'.active = some a)) := by
  constructor
  · intro st' h
    unfold executeSingle at h
    dsimp only at h
    simp only [Flags.ok_rSelectedObjects, Flags.ok_rActiveGet, Bool.false_eq_true,
      if_false] at h
    split at h
    · simp at h
    · split at h
      · simp at h
      · split at h
        · simp at h
        · split at h
          · simp at h
          · split at h
            · simp at h
            · split at h
              · simp at h
              · simp at h
              · rename_i st1 heq
                rw [ExecResult.ret.injEq] at h
                obtain ⟨hst1, hst2⟩ := h
                subst hst2
                obtain ⟨stE, hbody, hlvE, hselE, hactE, hrepE⟩ :=
                  bodySingle_ok_eq p1.include_children _ (selectedObjects st) st.active st
                rw [hbody] at heq
                exact bodySingleCore_ok_completed _ _ _ _ _ _ heq
  · intro st' h
    unfold executeMulti at h
    dsimp only at h
    simp only [Flags.ok_rSelectedObjects, Flags.ok_rActiveGet, Bool.false_eq_true,
      if_false] at h
    split at h
    · simp at h
    · split at h
      · simp at h
      · split at h
        · simp at h
        · split at h
          · simp at h
          · split at h
            · simp at h
            · split at h
              · simp at h
              · simp at h
              · rename_i st1 heq
                rw [ExecResult.ret.injEq] at h
                obtain ⟨hst1, hst2⟩ := h
                subst hst2
                obtain ⟨stE, hbody, hlvE, hselE, hactE, hrepE⟩ :=
                  bodyMulti_ok_eq p2.include_children _ (selectedObjects st) st.active st
                rw [hbody] at heq
                exact bodyMultiCore_ok_completed _ _ _ _ _ _ heq

/-- A scene like `sampleSt` but with the Lamp previously selected and
active. -/
def stSel : St :=
  ⟨[cA], [oCube, oLamp], ["Lamp"], some "Lamp", none, some viewArea, [], true, sampleTree, [], []⟩

/-- Witness for C10: on `stSel` the single-collection operator finishes,
re-selects exactly the previously selected Lamp and restores it as the
active object. -/
theorem c10_witness :
    (selectedObjects stSel ≠ []) ∧
    ((∀ n, n ∈ (executeSingle Flags.ok ⟨"A", true⟩ stSel).state.selection ↔
        n ∈ (selectedObjects stSel).map Obj.name) ∧
      ∀ a, stSel.active = some a →
        (executeSingle Flags.ok ⟨"A", true⟩ stSel).state.active = some a) := by
  have h := (c10_restore_on_finished ⟨"A", true⟩ ⟨"A", true⟩ stSel).1
    (executeSingle Flags.ok ⟨"A", true⟩ stSel).state rfl
  exact ⟨by decide, h.2 (by decide)⟩

/-- C1: with a resolving collection name and an available 3D view, the set
of objects selected at the moment local view is entered (the isolated
set) is exactly the visible objects of the collection — drawn from
`all_objects` when `include_children` is set and from `objects` otherwise
— and when that set is empty, `execute` reports a warning and returns
CANCELLED with local view never entered. -/
theorem c1_selected_set_is_visible_objects (p : Props1) (st : St) (coll : Coll)
    (area : Area) (region space : String)
    (hc : getColl st.collections p.collection_name = some coll)
    (ha : get3dviewArea Flags.ok st = .inr (some area))
    (hr : getWindowRegion Flags.ok (some area) = .inr (some region))
    (hs : getView3dSpace Flags.ok (some area) = .inr (some space)) :
    (((if p.include_children then coll.all_objects else coll.objects).filter
        (fun o => o.visible)) ≠ [] →
      ∃ st' snap, executeSingle Flags.ok p st = .ret .FINISHED st' ∧
        st'.localView = some snap ∧
        ∀ n, n ∈ snap ↔
          n ∈ ((if p.include_children then coll.all_objects else coll.objects).filter
            (fun o => o.visible)).map Obj.name) ∧
    (((if p.include_children then coll.all_objects else coll.objects).filter
        (fun o => o.visible)) = [] →
      ∃ st', executeSingle Flags.ok p st = .ret .CANCELLED st' ∧
        st'.localView = none ∧
        ("WARNING", "Collection has no visible objects") ∈ st'.reports) := by
  unfold executeSingle
  dsimp only
  simp only [Flags.ok_rSelectedObjects, Flags.ok_rActiveGet, Bool.false_eq_true, if_false]
  rw [hc]
  dsimp only
  rw [ha]
  dsimp only
  rw [hr]
  dsimp only
  rw [hs]
  dsimp only
  simp only [Option.isNone_some, Bool.or_self, Bool.false_eq_true, if_false]
  obtain ⟨stE, hbody, hlvE, hselE, hactE, hrepE⟩ :=
    bodySingle_ok_eq p.include_children coll (selectedObjects st) st.active st
  rw [hbody]
  obtain ⟨hnil, hcons⟩ :=
    bodySingleCore_ok p.include_children coll (selectedObjects st) st.active stE hlvE
  constructor
  · intro hvis
    rcases hv : (if p.include_children then coll.all_objects else coll.objects).filter
        (fun o => o.visible) with _ | ⟨o, rest⟩
    · exact absurd hv hvis
    · obtain ⟨st2, hcore, ⟨snap, hsnap, hsnapmem⟩, _, _, _⟩ := hcons o rest hv
      rw [hcore]
      refine ⟨st2, snap, rfl, hsnap, fun n => ?_⟩
      rw [hsnapmem n, hv]
  · intro hvis
    obtain ⟨st2, hcore, hlv2, hrep2⟩ := hnil hvis
    rw [hcore]
    refine ⟨st2, rfl, hlv2, ?_⟩
    rw [hrep2, hrepE]
    simp

/-- Witness for C1 on `sampleSt`: collection "A" has the visible Cube and
the hidden Lamp, so the isolated set is exactly the Cube. -/
theorem c1_witness :
    getColl sampleSt.collections "A" = some cA ∧
    (∃ st' snap, executeSingle Flags.ok ⟨"A", true⟩ sampleSt = .ret .FINISHED st' ∧
      st'.localView = some snap ∧ ∀ n, n ∈ snap ↔ n ∈ ["Cube"]) := by
  have h := (c1_selected_set_is_visible_objects ⟨"A", true⟩ sampleSt cA viewArea
    "WINDOW" "VIEW_3D" rfl rfl rfl rfl).1 (by decide)
  obtain ⟨st', snap, he, hl, hm⟩ := h
  refine ⟨rfl, st', snap, he, hl, fun n => ?_⟩
  rw [hm n]
  have hv : ((if (true : Bool) then cA.all_objects else cA.objects).filter
      (fun o => o.visible)).map Obj.name = ["Cube"] := by decide
  rw [hv]

/-! ### C9: the `seen` set makes `select_set` at most once per name -/

theorem objLoopMulti_calls_invariant (f : Flags) (l : List Obj) (seen : List String)
    (fo : Option Obj) (tr : List String) (st : St)
    (hnd : tr.Nodup) (hsub : ∀ n ∈ tr, n ∈ seen) :
    (objLoopMulti f l seen fo tr st).calls.Nodup ∧
    (∀ n ∈ (objLoopMulti f l seen fo tr st).calls, n ∈ (objLoopMulti f l seen fo tr st).seen) := by
  induction l generalizing seen fo tr st with
  | nil => exact ⟨hnd, hsub⟩
  | cons o rest ih =>
    unfold objLoopMulti
    by_cases hsn : seen.contains o.name
    · rw [if_pos hsn]
      exact ih seen fo tr st hnd hsub
    · rw [if_neg hsn]
      have hnm : o.name ∉ seen := by simpa using hsn
      have hnt : o.name ∉ tr := fun hmem => hnm (hsub _ hmem)
      have hnd2 : (tr ++ [o.name]).Nodup := by
        simp [List.nodup_append, hnd, hnt]
      have hsub1 : ∀ n ∈ tr, n ∈ o.name :: seen :=
        fun n hn => List.mem_cons_of_mem _ (hsub n hn)
      have hsub2 : ∀ n ∈ tr ++ [o.name], n ∈ o.name :: seen := by
        intro n hn
        rcases List.mem_append.mp hn with hn | hn
        · exact hsub1 n hn
        · simp at hn
          simp [hn]
      dsimp only
      split_ifs <;>
        first
          | exact ih _ _ _ _ hnd hsub1
          | exact ih _ _ _ _ hnd2 hsub2

theorem collLoopMulti_calls_invariant (f : Flags) (ic : Bool) (cs : List Coll)
    (seen : List String) (fo : Option Obj) (tr : List String) (st : St)
    (hnd : tr.Nodup) (hsub : ∀ n ∈ tr, n ∈ seen) :
    (collLoopMulti f ic cs seen fo tr st).calls.Nodup ∧
    (∀ n ∈ (collLoopMulti f ic cs seen fo tr st).calls,
      n ∈ (collLoopMulti f ic cs seen fo tr st).seen) := by
  induction cs generalizing seen fo tr st with
  | nil => exact ⟨hnd, hsub⟩
  | cons c rest ih =>
    simp only [collLoopMulti]
    obtain ⟨h1, h2⟩ := objLoopMulti_calls_invariant f (if ic then c.all_objects else c.objects)
      seen fo tr st hnd hsub
    exact ih _ _ _ _ h1 h2

/-- C9: in the multi-collection selection loop every object name is
processed at most once across all listed collections: the list of names
for which `select_set` is called has no duplicates. -/
theorem c9_select_set_at_most_once (f : Flags) (ic : Bool) (cs : List Coll) (st : St) :
    (collLoopMulti f ic cs [] none [] st).calls.Nodup :=
  (collLoopMulti_calls_invariant f ic cs [] none [] st List.nodup_nil
    (fun n hn => absurd hn (List.not_mem_nil n))).1

/-- C6: with more than one selected object, the hierarchy popup shows no
menu: it invokes `view3d.local_view_collections_activate` with
`collection_names` equal to the newline-joined names of the union of the
selected objects' `users_collection` sets sorted case-insensitively, with
`include_children` true, and returns FINISHED, leaving the state
untouched. -/
theorem c6_popup_multi_selection (st : St)
    (hvl : st.hasViewLayer = true)
    (hlen : (selectedObjects st).length > 1) :
    popupInvoke st =
      ((.FINISHED, .opCall
        (String.intercalate "\n"
          (sortByLower ((selectedObjects st).flatMap (fun o => o.users_collection)).eraseDups))
        true), st) := by
  unfold popupInvoke
  simp only [hvl, Bool.not_true, Bool.false_eq_true, if_false]
  have hne : (selectedObjects st).isEmpty = false := by
    rcases h : selectedObjects st with _ | ⟨o, l⟩
    · rw [h] at hlen
      simp at hlen
    · rfl
  simp only [hne, Bool.false_eq_true, if_false, if_pos hlen]

/-- Two selected objects, one in collection "b", one in collection "A". -/
def stTwoSel : St :=
  ⟨[], [⟨"X1", true, ["b"]⟩, ⟨"X2", true, ["A"]⟩], ["X1", "X2"], none, none, none, [],
   true, sampleTree, [], []⟩

/-- Witness for C6: two selected objects belonging to collections "b" and
"A"; the operator call uses the case-insensitively sorted newline-joined
names. -/
theorem c6_witness :
    ((selectedObjects stTwoSel).length > 1) ∧
    popupInvoke stTwoSel =
      ((.FINISHED, .opCall "A\nb" true), stTwoSel) := by
  constructor
  · decide
  · have h := c6_popup_multi_selection stTwoSel rfl (by decide)
    rw [h]
    rfl

/-! ### C4: `_find_layer_collection_path` -/

/-- Structural induction over layer-collection trees. -/
theorem LC.indOn (P : LC → Prop)
    (step : ∀ c cs, (∀ x ∈ cs, P x) → P (LC.mk c cs)) : ∀ n, P n
  | .mk c cs => step c cs (fun x hx => LC.indOn P step x)
termination_by n => sizeOf n
decreasing_by
  simp only [LC.mk.sizeOf_spec]
  have := List.sizeOf_lt_of_mem hx
  omega

/-- A successful `findPathList` result comes from one of the children. -/
theorem findPathList_some (t : String) (cs : List LC) (q : List LC)
    (h : findPathList t cs = some q) : ∃ x ∈ cs, findPath t x = some q := by
  induction cs with
  | nil => simp [findPathList] at h
  | cons x rest ih =>
    simp only [findPathList] at h
    split at h
    · rename_i q2 hx
      injection h with h1
      subst h1
      exact ⟨x, List.mem_cons_self x rest, hx⟩
    · obtain ⟨y, hy, hfy⟩ := ih h
      exact ⟨y, List.mem_cons_of_mem x hy, hfy⟩

/-- `findPathList` fails exactly when the target occurs in none of the
children, given the same equivalence for each child. -/
theorem findPathList_none_iff (t : String) (cs : List LC) :
    (∀ x ∈ cs, (findPath t x = none ↔ occursIn t x = false)) →
    (findPathList t cs = none ↔ occursInList t cs = false) := by
  induction cs with
  | nil =>
    intro IH
    simp [findPathList, occursInList]
  | cons x rest ih =>
    intro IH
    have hiff := ih (fun y hy => IH y (List.mem_cons_of_mem x hy))
    have hx := IH x (List.mem_cons_self x rest)
    simp only [findPathList, occursInList]
    rcases hfl : findPath t x with _ | q
    · have hox : occursIn t x = false := hx.mp hfl
      rw [hox, Bool.false_or]
      exact hiff
    · have hox : occursIn t x = true := by
        rcases hb : occursIn t x with _ | _
        · exact absurd hfl (by simp [hx.mpr hb])
        · rfl
      rw [hox]
      simp

/-- The inductive step of C4. -/
theorem c4_step (t : String) (c : String) (cs : List LC)
    (IH : ∀ x ∈ cs,
      (∀ p, findPath t x = some p →
        p.head? = some x ∧ p.getLast?.map LC.cname = some t ∧
        List.Chain' (fun a b => b ∈ a.children) p) ∧
      (findPath t x = none ↔ occursIn t x = false)) :
    (∀ p, findPath t (LC.mk c cs) = some p →
      p.head? = some (LC.mk c cs) ∧ p.getLast?.map LC.cname = some t ∧
      List.Chain' (fun a b => b ∈ a.children) p) ∧
    (findPath t (LC.mk c cs) = none ↔ occursIn t (LC.mk c cs) = false) := by
  constructor
  · intro p hp
    simp only [findPath] at hp
    by_cases hct : c = t
    · rw [if_pos hct] at hp
      injection hp with h1
      subst h1
      refine ⟨rfl, ?_, ?_⟩
      · simp [LC.cname, hct]
      · exact List.chain'_singleton _
    · rw [if_neg hct] at hp
      split at hp
      · rename_i q hq
        injection hp with h1
        subst h1
        obtain ⟨x, hx, hfx⟩ := findPathList_some t cs q hq
        obtain ⟨hhead, hlast, hchain⟩ := (IH x hx).1 q hfx
        rcases q with _ | ⟨x0, q2⟩
        · simp at hhead
        · have hx0 : x0 = x := by simpa using hhead
          subst hx0
          refine ⟨rfl, ?_, ?_⟩
          · rw [List.getLast?_cons_cons]
            exact hlast
          · rw [List.chain'_cons]
            exact ⟨by simpa [LC.children] using hx, hchain⟩
      · exact absurd hp (by simp)
  · simp only [findPath, occursIn]
    by_cases hct : c = t
    · simp [hct]
    · rw [if_neg hct]
      have hbeq : (c == t) = false := by
        simpa using hct
      rw [hbeq, Bool.false_or]
      have hiff := findPathList_none_iff t cs (fun x hx => (IH x hx).2)
      rcases hfl : findPathList t cs with _ | q
      · rw [hfl] at hiff
        simp only [true_iff] at hiff
        simpa using hiff
      · rw [hfl] at hiff
        simp only [hfl]
        constructor
        · intro hcontra
          cases hcontra
        · intro hocc
          exact absurd (hiff.mpr hocc) (by simp)

/-- C4: on every layer-collection tree node, `_find_layer_collection_path`
returns a list that starts at the given node, in which each element is a
child of its predecessor and whose last element's collection is the
target, whenever the target occurs in the subtree; it returns `None`
exactly when the target occurs nowhere in the subtree. -/
theorem c4_find_layer_collection_path (t : String) (node : LC) :
    (∀ p, findPath t node = some p →
      p.head? = some node ∧ p.getLast?.map LC.cname = some t ∧
      List.Chain' (fun a b => b ∈ a.children) p) ∧
    (findPath t node = none ↔ occursIn t node = false) :=
  LC.indOn _ (fun c cs IH => c4_step t c cs IH) node

/-- Witness for C4 on the sample tree: target "B" sits two levels below
the root, and the returned path is root → "A" → "B". -/
theorem c4_witness :
    findPath "B" sampleTree = some [sampleTree, LC.mk "A" [LC.mk "B" []], LC.mk "B" []] ∧
    ([sampleTree, LC.mk "A" [LC.mk "B" []], LC.mk "B" []].head? = some sampleTree ∧
      [sampleTree, LC.mk "A" [LC.mk "B" []], LC.mk "B" []].getLast?.map LC.cname = some "B" ∧
      List.Chain' (fun a b => b ∈ a.children)
        [sampleTree, LC.mk "A" [LC.mk "B" []], LC.mk "B" []]) := by
  have hp : findPath "B" sampleTree =
      some [sampleTree, LC.mk "A" [LC.mk "B" []], LC.mk "B" []] := by
    simp [findPath, findPathList, sampleTree]
  exact ⟨hp, (c4_find_layer_collection_path "B" sampleTree).1 _ hp⟩

/-! ### C5: `_build_full_layer_tree_entries` -/

theorem append_ne_empty_of_len (s t : String) (ht : t.length ≠ 0) : s ++ t ≠ "" := by
  intro he
  have h0 := congrArg String.length he
  rw [String.length_append] at h0
  have hz : ("" : String).length = 0 := rfl
  rw [hz] at h0
  exact ht (by omega)

theorem buildChildren_map_cname (cs : List LC) :
    ∀ pre, (∀ x ∈ cs, ∀ p isL, (buildRec x p isL).map Entry.cname = preorderLC x) →
      (buildChildren cs pre).map Entry.cname = preorderLCList cs := by
  induction cs with
  | nil =>
    intro pre IH
    simp [buildChildren, preorderLCList]
  | cons x rest ih =>
    intro pre IH
    rcases rest with _ | ⟨y, rest2⟩
    · simp only [buildChildren, preorderLCList]
      rw [IH x (List.mem_cons_self x []) pre true]
      simp [preorderLCList]
    · simp only [buildChildren, preorderLCList]
      rw [List.map_append, IH x (List.mem_cons_self x (y :: rest2)) pre false,
        ih pre (fun z hz => IH z (List.mem_cons_of_mem x hz))]
      simp only [preorderLCList]

/-- Preorder shape of the full-tree entries: one entry per node, parents
first, children in listed order. -/
theorem buildRec_map_cname (node : LC) :
    ∀ pre isL, (buildRec node pre isL).map Entry.cname = preorderLC node := by
  induction node using LC.indOn with
  | step c cs IH =>
    intro pre isL
    simp only [buildRec, preorderLC, List.map_cons]
    rw [buildChildren_map_cname cs _ (fun x hx => IH x hx)]

theorem buildChildren_selectable (cs : List LC) :
    ∀ pre, pre ≠ "" →
      (∀ x ∈ cs, ∀ p isL, p ≠ "" → ∀ e ∈ buildRec x p isL, e.selectable = true) →
      ∀ e ∈ buildChildren cs pre, e.selectable = true := by
  induction cs with
  | nil =>
    intro pre hpre IH e he
    simp [buildChildren] at he
  | cons x rest ih =>
    intro pre hpre IH e he
    rcases rest with _ | ⟨y, rest2⟩
    · simp only [buildChildren] at he
      exact IH x (List.mem_cons_self x []) pre true hpre e he
    · simp only [buildChildren, List.mem_append] at he
      rcases he with he | he
      · exact IH x (List.mem_cons_self x (y :: rest2)) pre false hpre e he
      · exact ih pre hpre (fun z hz => IH z (List.mem_cons_of_mem x hz)) e he

theorem buildRec_selectable (node : LC) :
    ∀ pre isL, pre ≠ "" → ∀ e ∈ buildRec node pre isL, e.selectable = true := by
  induction node using LC.indOn with
  | step c cs IH =>
    intro pre isL hpre e he
    simp only [buildRec, List.mem_cons] at he
    rcases he with he | he
    · subst he
      simpa using hpre
    · have hpre2 : (pre ++ if isL then "   " else "│  ") ≠ "" := by
        apply append_ne_empty_of_len
        cases isL <;> decide
      exact buildChildren_selectable cs _ hpre2 (fun x hx => IH x hx) e he

/-- C5: `_build_full_layer_tree_entries` emits one entry per tree node in
depth-first preorder; the root is the first entry and the only
non-selectable one. -/
theorem c5_full_tree_entries (root : LC) :
    ((buildFull root).map Entry.cname = preorderLC root) ∧
    (∃ e tl, buildFull root = e :: tl ∧ e.cname = root.cname ∧ e.selectable = false ∧
      ∀ x ∈ tl, x.selectable = true) := by
  constructor
  · exact buildRec_map_cname root "" true
  · rcases root with ⟨c, cs⟩
    simp only [buildFull, buildRec]
    have hsel : (("" : String) != "") = false := by decide
    refine ⟨_, _, rfl, rfl, hsel, ?_⟩
    intro x hx
    refine buildChildren_selectable cs _ ?_ (fun z hz => buildRec_selectable z) x hx
    apply append_ne_empty_of_len
    decide

/-- Witness for C5 on the sample tree. -/
theorem c5_witness :
    ((buildFull sampleTree).map Entry.cname =
      ["Scene Collection", "A", "B", "C"]) ∧
    (∃ e tl, buildFull sampleTree = e :: tl ∧ e.cname = "Scene Collection" ∧
      e.selectable = false ∧ ∀ x ∈ tl, x.selectable = true) := by
  obtain ⟨h1, h2⟩ := c5_full_tree_entries sampleTree
  constructor
  · rw [h1]
    simp [sampleTree, preorderLC, preorderLCList]
  · obtain ⟨e, tl, he, hc, hs, ht⟩ := h2
    exact ⟨e, tl, he, by rw [hc]; rfl, hs, ht⟩

end LocalViewCollection
